import Mathlib

/-!
Shallow embedding of the `stdutil/log` package (`src/log.go`), an in-process
ordered log-message accumulator, together with proofs about its behaviour.
Go slices become Lean lists, Go methods become pure functions from the
receiver value to the updated value, and the single environment read
(`runtime.GOOS == "windows"` in `NewLog`) becomes an explicit argument.
-/

namespace StdutilLog

/-- Go: `type LogType string`. -/
abbrev LogType := String

/-- Go: `Info LogType = "INF"`. -/
def Info : LogType := "INF"

/-- Go: `Warn LogType = "WRN"`. -/
def Warn : LogType := "WRN"

/-- Go: `Error LogType = "ERR"`. -/
def Error : LogType := "ERR"

/-- Go: `Fatal LogType = "FTL"`. -/
def Fatal : LogType := "FTL"

/-- Go: `Success LogType = "SUC"`. -/
def Success : LogType := "SUC"

/-- Go: `App LogType = ""`. -/
def App : LogType := ""

/-- Go: `const DelimMsgType string = ": "`. -/
def DelimMsgType : String := ": "

/-- Go struct `LogInfo`.  The Go field `Type` is named `typ` here, because
`Type` is reserved in Lean (the name follows the `typ` parameter of the Go
function `addMessage`). -/
structure LogInfo where
  typ : LogType
  Prefix : String
  Message : String
deriving DecidableEq, Repr

/-- Go struct `Log` (`Prefix string; ln []LogInfo; osIsWin bool`). -/
structure Log where
  Prefix : String
  ln : List LogInfo
  osIsWin : Bool
deriving DecidableEq, Repr

/-- Go: `strings.TrimSpace`, modelled by Lean's `String.trim`; both strip
leading and trailing whitespace from the string. -/
def trimSpace (s : String) : String :=
  s.trim

/-- Go: `NewLog`.  The Go constructor reads the environment
(`osIsWin: runtime.GOOS == "windows"`); that hidden read is the explicit
argument `osIsWin` of the model. -/
def NewLog (pfx : String) (osIsWin : Bool) : Log :=
  { Prefix := pfx, ln := [], osIsWin := osIsWin }

/-- Go: `addMessage`, which trims the message and appends one `LogInfo`
to the slice. -/
def addMessage (nt : List LogInfo) (pfx msg : String) (typ : LogType) : List LogInfo :=
  nt ++ [{ typ := typ, Prefix := pfx, Message := trimSpace msg }]

/-- Go: `(*Log).AddInfo` — `for _, m := range msg { addMessage(&r.ln, r.Prefix, m, Info) }`. -/
def Log.AddInfo (r : Log) (msg : List String) : Log :=
  { r with ln := msg.foldl (fun nt m => addMessage nt r.Prefix m Info) r.ln }

/-- Go: `(*Log).AddWarning`. -/
def Log.AddWarning (r : Log) (msg : List String) : Log :=
  { r with ln := msg.foldl (fun nt m => addMessage nt r.Prefix m Warn) r.ln }

/-- Go: `(*Log).AddError`. -/
def Log.AddError (r : Log) (msg : List String) : Log :=
  { r with ln := msg.foldl (fun nt m => addMessage nt r.Prefix m Error) r.ln }

/-- Go: `(*Log).AddSuccess`. -/
def Log.AddSuccess (r : Log) (msg : List String) : Log :=
  { r with ln := msg.foldl (fun nt m => addMessage nt r.Prefix m Success) r.ln }

/-- Go: `(*Log).AddAppMsg`. -/
def Log.AddAppMsg (r : Log) (msg : List String) : Log :=
  { r with ln := msg.foldl (fun nt m => addMessage nt r.Prefix m App) r.ln }

/-- Go: `(*Log).Append` — `r.ln = append(r.ln, ln...)`. -/
def Log.Append (r : Log) (ln : List LogInfo) : Log :=
  { r with ln := r.ln ++ ln }

/-- Go: `(*Log).Clear` — `r.ln = []LogInfo{}`. -/
def Log.Clear (r : Log) : Log :=
  { r with ln := [] }

/-- Go: `Log.HasErrors`, a scan stopping at the first `Error` entry. -/
def Log.HasErrors (r : Log) : Bool :=
  r.ln.any (fun ln => ln.typ == Error)

/-- Go: `Log.HasWarnings`. -/
def Log.HasWarnings (r : Log) : Bool :=
  r.ln.any (fun ln => ln.typ == Warn)

/-- Go: `Log.HasInfos`. -/
def Log.HasInfos (r : Log) : Bool :=
  r.ln.any (fun ln => ln.typ == Info)

/-- Go: `Log.HasSucceses` (method name as in the source). -/
def Log.HasSucceses (r : Log) : Bool :=
  r.ln.any (fun ln => ln.typ == Success)

/-- Go: the body of the tally loop of `getDominantNoteType`
(`switch msg.Type`): only `Info`, `Warn`, `Error` and `Success` entries
increment a counter; every other type falls through. -/
def tallyStep (c : Nat × Nat × Nat × Nat) (msg : LogInfo) : Nat × Nat × Nat × Nat :=
  match c with
  | (nfo, wrn, err, suc) =>
    if msg.typ == Info then (nfo + 1, wrn, err, suc)
    else if msg.typ == Warn then (nfo, wrn + 1, err, suc)
    else if msg.typ == Error then (nfo, wrn, err + 1, suc)
    else if msg.typ == Success then (nfo, wrn, err, suc + 1)
    else (nfo, wrn, err, suc)

/-- Go: `getDominantNoteType`. -/
def getDominantNoteType (msgs : List LogInfo) : LogType :=
  match msgs.foldl tallyStep (0, 0, 0, 0) with
  | (nfo, wrn, err, suc) =>
    if nfo > wrn && nfo > err && nfo > suc then Info
    else if wrn > nfo && wrn > err && wrn > suc then Warn
    else if err > nfo && err > wrn && err > suc then Error
    else if suc > nfo && suc > wrn && suc > err then Success
    else App

/-- Go: `(*Log).Prevailing`. -/
def Log.Prevailing (r : Log) : LogType :=
  getDominantNoteType r.ln

/-- Go: `(*Log).Notes` — `return r.ln`. -/
def Log.Notes (r : Log) : List LogInfo :=
  r.ln

/-- Go: `(*LogInfo).ToString`. -/
def LogInfo.ToString (lni : LogInfo) : String :=
  let td :=
    if lni.typ != App then
      lni.typ ++ (if lni.Prefix != "" then "[" ++ lni.Prefix ++ "]" else "") ++ DelimMsgType
    else ""
  td ++ lni.Message

/-- Go: `(*Log).ToString` — every line followed by `lf`, built with a
string builder (a left fold starting from the empty string). -/
def Log.ToString (r : Log) : String :=
  let lf := if r.osIsWin then "\r\n" else "\n"
  r.ln.foldl (fun sb v => sb ++ (v.ToString ++ lf)) ""

/-- Go semantics of a caller writing through the value returned by `Notes`:
`Notes` returns the internal slice `r.ln` itself (`return r.ln`), whose
backing array is shared with the log, so the caller program
`ns := r.Notes(); ns[i] = v` stores `v` into element `i` of the log's own
storage.  This definition is that two-statement caller program observed
through the log `r`. -/
def writeNotesElem (r : Log) (i : Nat) (v : LogInfo) : Log :=
  { r with ln := r.ln.set i v }

/-- Go field assignment `r.Prefix = p` on the exported `Prefix` field. -/
def Log.setPrefix (r : Log) (p : String) : Log :=
  { r with Prefix := p }

/-- Specification-side count: number of stored messages whose type is `t`. -/
def countType (msgs : List LogInfo) (t : LogType) : Nat :=
  (msgs.filter (fun m => m.typ == t)).length

/-! ## Helper lemmas -/

theorem addMessage_foldl (l : List String) (init : List LogInfo) (pfx : String) (typ : LogType) :
    l.foldl (fun nt m => addMessage nt pfx m typ) init
      = init ++ l.map (fun m => { typ := typ, Prefix := pfx, Message := trimSpace m }) := by
  induction l generalizing init with
  | nil => simp
  | cons a l ih =>
    rw [List.foldl_cons, ih]
    simp [addMessage]

theorem string_foldl_shift (l : List String) (init : String) :
    l.foldl (fun sb s => sb ++ s) init = init ++ String.join l := by
  induction l generalizing init with
  | nil => simp [String.join]
  | cons a l ih =>
    simp only [List.foldl_cons, String.join, List.foldl] at *
    rw [ih (init ++ a), ih ("" ++ a)]
    simp [String.append_assoc]

theorem string_join_cons (a : String) (l : List String) :
    String.join (a :: l) = a ++ String.join l := by
  show List.foldl (fun x s => x ++ s) "" (a :: l) = _
  rw [List.foldl_cons, string_foldl_shift, String.empty_append]

theorem log_tostring_eq_join (r : Log) :
    r.ToString
      = String.join (r.ln.map fun v => v.ToString ++ (if r.osIsWin then "\r\n" else "\n")) := by
  unfold Log.ToString
  rw [← List.foldl_map (fun v : LogInfo => v.ToString ++ (if r.osIsWin then "\r\n" else "\n"))
    (fun sb s => sb ++ s) r.ln ""]
  rw [string_foldl_shift, String.empty_append]

theorem join_lines_ends (lf : String) (f : LogInfo → String) :
    ∀ l : List LogInfo, l ≠ [] → ∃ s, String.join (l.map fun v => f v ++ lf) = s ++ lf
  | [], h => absurd rfl h
  | [a], _ => by
    refine ⟨f a, ?_⟩
    rw [List.map_cons, List.map_nil, string_join_cons]
    exact String.append_empty _
  | a :: b :: l, _ => by
    obtain ⟨s, hs⟩ := join_lines_ends lf f (b :: l) (by simp)
    refine ⟨f a ++ lf ++ s, ?_⟩
    rw [List.map_cons, string_join_cons, hs, ← String.append_assoc]

theorem tally_foldl (msgs : List LogInfo) (a b c d : Nat) :
    msgs.foldl tallyStep (a, b, c, d)
      = (a + countType msgs Info, b + countType msgs Warn,
         c + countType msgs Error, d + countType msgs Success) := by
  induction msgs generalizing a b c d with
  | nil => simp [countType]
  | cons m l ih =>
    by_cases hI : m.typ = Info
    · simp +decide [List.foldl_cons, tallyStep, countType, List.filter_cons, hI, Info, Warn,
        Error, Success, ih]
      omega
    · by_cases hW : m.typ = Warn
      · simp +decide [List.foldl_cons, tallyStep, countType, List.filter_cons, hI, hW, Info,
          Warn, Error, Success, ih]
        omega
      · by_cases hE : m.typ = Error
        · simp +decide [List.foldl_cons, tallyStep, countType, List.filter_cons, hI, hW, hE,
            Info, Warn, Error, Success, ih]
          omega
        · by_cases hS : m.typ = Success
          · simp +decide [List.foldl_cons, tallyStep, countType, List.filter_cons, hI, hW, hE,
              hS, Info, Warn, Error, Success, ih]
            omega
          · simp [List.foldl_cons, tallyStep, countType, List.filter_cons, hI, hW, hE, hS, ih]

theorem dominance_if (i w e s : Nat) :
    ((if i > w && i > e && i > s then Info
      else if w > i && w > e && w > s then Warn
      else if e > i && e > w && e > s then Error
      else if s > i && s > w && s > e then Success
      else App) = Info ↔ (i > w ∧ i > e ∧ i > s)) ∧
    ((if i > w && i > e && i > s then Info
      else if w > i && w > e && w > s then Warn
      else if e > i && e > w && e > s then Error
      else if s > i && s > w && s > e then Success
      else App) = Warn ↔ (w > i ∧ w > e ∧ w > s)) ∧
    ((if i > w && i > e && i > s then Info
      else if w > i && w > e && w > s then Warn
      else if e > i && e > w && e > s then Error
      else if s > i && s > w && s > e then Success
      else App) = Error ↔ (e > i ∧ e > w ∧ e > s)) ∧
    ((if i > w && i > e && i > s then Info
      else if w > i && w > e && w > s then Warn
      else if e > i && e > w && e > s then Error
      else if s > i && s > w && s > e then Success
      else App) = Success ↔ (s > i ∧ s > w ∧ s > e)) ∧
    ((if i > w && i > e && i > s then Info
      else if w > i && w > e && w > s then Warn
      else if e > i && e > w && e > s then Error
      else if s > i && s > w && s > e then Success
      else App) = App ↔
        ¬(i > w ∧ i > e ∧ i > s) ∧ ¬(w > i ∧ w > e ∧ w > s) ∧
        ¬(e > i ∧ e > w ∧ e > s) ∧ ¬(s > i ∧ s > w ∧ s > e)) := by
  split_ifs with h1 h2 h3 h4 <;> simp_all [Info, Warn, Error, Success, App] <;> omega

theorem countType_append (xs ys : List LogInfo) (t : LogType) :
    countType (xs ++ ys) t = countType xs t + countType ys t := by
  simp [countType, List.filter_append]

theorem countType_eq_zero (xs : List LogInfo) (t : LogType) (h : ∀ m ∈ xs, m.typ ≠ t) :
    countType xs t = 0 := by
  simp only [countType, List.length_eq_zero, List.filter_eq_nil_iff]
  intro m hm
  simpa using h m hm

theorem prevailing_counts (r : Log) :
    r.Prevailing =
      (if countType r.ln Info > countType r.ln Warn
          && countType r.ln Info > countType r.ln Error
          && countType r.ln Info > countType r.ln Success then Info
       else if countType r.ln Warn > countType r.ln Info
          && countType r.ln Warn > countType r.ln Error
          && countType r.ln Warn > countType r.ln Success then Warn
       else if countType r.ln Error > countType r.ln Info
          && countType r.ln Error > countType r.ln Warn
          && countType r.ln Error > countType r.ln Success then Error
       else if countType r.ln Success > countType r.ln Info
          && countType r.ln Success > countType r.ln Warn
          && countType r.ln Success > countType r.ln Error then Success
       else App) := by
  unfold Log.Prevailing getDominantNoteType
  rw [tally_foldl]
  simp only [Nat.zero_add]

theorem prevailing_eq_of_counts (x y : Log)
    (hI : countType x.ln Info = countType y.ln Info)
    (hW : countType x.ln Warn = countType y.ln Warn)
    (hE : countType x.ln Error = countType y.ln Error)
    (hS : countType x.ln Success = countType y.ln Success) :
    x.Prevailing = y.Prevailing := by
  rw [prevailing_counts, prevailing_counts, hI, hW, hE, hS]

theorem prevailing_ne_fatal (r : Log) : r.Prevailing ≠ Fatal := by
  rw [prevailing_counts]
  split_ifs <;> decide

/-! ## Claims -/

/-- C1: `Prevailing` returns a category X ∈ {Info, Warn, Error, Success} exactly
when the count of stored messages of type X is strictly greater than each of the
other three counts, and returns `App` exactly when no category has such a strict
majority (all-zero tallies or any blocking tie); messages of type `App` are not
tallied, since each per-type count only counts messages of that exact type. -/
theorem C1_prevailing_dominance (r : Log) :
    (r.Prevailing = Info ↔
      (countType r.ln Info > countType r.ln Warn ∧
       countType r.ln Info > countType r.ln Error ∧
       countType r.ln Info > countType r.ln Success)) ∧
    (r.Prevailing = Warn ↔
      (countType r.ln Warn > countType r.ln Info ∧
       countType r.ln Warn > countType r.ln Error ∧
       countType r.ln Warn > countType r.ln Success)) ∧
    (r.Prevailing = Error ↔
      (countType r.ln Error > countType r.ln Info ∧
       countType r.ln Error > countType r.ln Warn ∧
       countType r.ln Error > countType r.ln Success)) ∧
    (r.Prevailing = Success ↔
      (countType r.ln Success > countType r.ln Info ∧
       countType r.ln Success > countType r.ln Warn ∧
       countType r.ln Success > countType r.ln Error)) ∧
    (r.Prevailing = App ↔
      ¬(countType r.ln Info > countType r.ln Warn ∧
        countType r.ln Info > countType r.ln Error ∧
        countType r.ln Info > countType r.ln Success) ∧
      ¬(countType r.ln Warn > countType r.ln Info ∧
        countType r.ln Warn > countType r.ln Error ∧
        countType r.ln Warn > countType r.ln Success) ∧
      ¬(countType r.ln Error > countType r.ln Info ∧
        countType r.ln Error > countType r.ln Warn ∧
        countType r.ln Error > countType r.ln Success) ∧
      ¬(countType r.ln Success > countType r.ln Info ∧
        countType r.ln Success > countType r.ln Warn ∧
        countType r.ln Success > countType r.ln Error)) := by
  rw [prevailing_counts]
  exact dominance_if (countType r.ln Info) (countType r.ln Warn) (countType r.ln Error)
    (countType r.ln Success)

/-- C2: `ToString` is the concatenation of every stored message's rendered line
in insertion order, each line terminated by the construction-time platform
newline (the two-character "\r\n" when the log was built on Windows, the
one-character "\n" otherwise); the output is empty for an empty log and ends
with the newline for a non-empty log. -/
theorem C2_tostring_lines (r : Log) :
    r.ToString
      = String.join (r.ln.map fun v => v.ToString ++ (if r.osIsWin then "\r\n" else "\n")) ∧
    (r.ln = [] → r.ToString = "") ∧
    (r.ln ≠ [] → ∃ s, r.ToString = s ++ (if r.osIsWin then "\r\n" else "\n")) := by
  refine ⟨log_tostring_eq_join r, fun h => ?_, fun h => ?_⟩
  · rw [log_tostring_eq_join, h]
    rfl
  · obtain ⟨s, hs⟩ :=
      join_lines_ends (if r.osIsWin then "\r\n" else "\n") LogInfo.ToString r.ln h
    exact ⟨s, by rw [log_tostring_eq_join]; exact hs⟩

/-- Witness for C2: an empty Windows-style log renders as the empty string, and
a one-message Unix-style log renders as a string ending in "\n". -/
theorem C2_tostring_lines_witness :
    (Log.ToString ⟨"APP", [], true⟩ = "") ∧
    (∃ s, Log.ToString ⟨"APP", [⟨Info, "APP", "started"⟩], false⟩
      = s ++ (if (false : Bool) then "\r\n" else "\n")) :=
  ⟨(C2_tostring_lines ⟨"APP", [], true⟩).2.1 rfl,
   (C2_tostring_lines ⟨"APP", [⟨Info, "APP", "started"⟩], false⟩).2.2 (by decide)⟩

/-- C3: a stored message renders as its text alone when its type is `App`,
regardless of its prefix; otherwise as the type's short code, then "[prefix]"
only when the prefix is non-empty, then the two-character delimiter ": ", then
the text; the short codes are INF, WRN, ERR, FTL, SUC. -/
theorem C3_loginfo_render (m : LogInfo) :
    (m.typ = App → m.ToString = m.Message) ∧
    (m.typ ≠ App →
      m.ToString = m.typ ++ (if m.Prefix = "" then "" else "[" ++ m.Prefix ++ "]")
        ++ ": " ++ m.Message) ∧
    Info = "INF" ∧ Warn = "WRN" ∧ Error = "ERR" ∧ Fatal = "FTL" ∧ Success = "SUC" ∧
    App = "" := by
  refine ⟨fun h => ?_, fun h => ?_, rfl, rfl, rfl, rfl, rfl, rfl⟩
  · simp [LogInfo.ToString, h]
  · by_cases hp : m.Prefix = ""
    · simp [LogInfo.ToString, DelimMsgType, h, hp]
    · simp [LogInfo.ToString, DelimMsgType, h, hp, String.append_assoc]

/-- Witness for C3 at a plain message with a non-empty prefix and at an Info
message with a non-empty prefix. -/
theorem C3_loginfo_render_witness :
    (LogInfo.ToString { typ := App, Prefix := "X", Message := "plain" } = "plain") ∧
    (LogInfo.ToString { typ := Info, Prefix := "X", Message := "hello" }
      = Info ++ (if ("X" : String) = "" then "" else "[" ++ "X" ++ "]") ++ ": " ++ "hello") :=
  ⟨(C3_loginfo_render { typ := App, Prefix := "X", Message := "plain" }).1 rfl,
   (C3_loginfo_render { typ := Info, Prefix := "X", Message := "hello" }).2.1 (by decide)⟩

/-- C4: each of the four has-X predicates holds exactly when at least one
stored message has that category (the receiver is taken by value in the
source, so the log itself is not modified). -/
theorem C4_has_predicates (r : Log) :
    (r.HasErrors = true ↔ ∃ m ∈ r.ln, m.typ = Error) ∧
    (r.HasWarnings = true ↔ ∃ m ∈ r.ln, m.typ = Warn) ∧
    (r.HasInfos = true ↔ ∃ m ∈ r.ln, m.typ = Info) ∧
    (r.HasSucceses = true ↔ ∃ m ∈ r.ln, m.typ = Success) := by
  simp [Log.HasErrors, Log.HasWarnings, Log.HasInfos, Log.HasSucceses, List.any_eq_true]

/-- C5: each categorized add appends exactly the given strings, in order, at
the end of the log, each trimmed, stamped with the log's current default prefix
and the operation's fixed category; nothing is filtered and the previously
stored messages (and the other fields) are unchanged. -/
theorem C5_categorized_add (r : Log) (msgs : List String) :
    ((r.AddInfo msgs).ln
        = r.ln ++ msgs.map (fun m => { typ := Info, Prefix := r.Prefix, Message := trimSpace m })
      ∧ (r.AddInfo msgs).Prefix = r.Prefix ∧ (r.AddInfo msgs).osIsWin = r.osIsWin) ∧
    ((r.AddWarning msgs).ln
        = r.ln ++ msgs.map (fun m => { typ := Warn, Prefix := r.Prefix, Message := trimSpace m })
      ∧ (r.AddWarning msgs).Prefix = r.Prefix ∧ (r.AddWarning msgs).osIsWin = r.osIsWin) ∧
    ((r.AddError msgs).ln
        = r.ln ++ msgs.map (fun m => { typ := Error, Prefix := r.Prefix, Message := trimSpace m })
      ∧ (r.AddError msgs).Prefix = r.Prefix ∧ (r.AddError msgs).osIsWin = r.osIsWin) ∧
    ((r.AddSuccess msgs).ln
        = r.ln ++ msgs.map (fun m => { typ := Success, Prefix := r.Prefix, Message := trimSpace m })
      ∧ (r.AddSuccess msgs).Prefix = r.Prefix ∧ (r.AddSuccess msgs).osIsWin = r.osIsWin) ∧
    ((r.AddAppMsg msgs).ln
        = r.ln ++ msgs.map (fun m => { typ := App, Prefix := r.Prefix, Message := trimSpace m })
      ∧ (r.AddAppMsg msgs).Prefix = r.Prefix ∧ (r.AddAppMsg msgs).osIsWin = r.osIsWin) := by
  refine ⟨⟨?_, rfl, rfl⟩, ⟨?_, rfl, rfl⟩, ⟨?_, rfl, rfl⟩, ⟨?_, rfl, rfl⟩, ⟨?_, rfl, rfl⟩⟩ <;>
    simp [Log.AddInfo, Log.AddWarning, Log.AddError, Log.AddSuccess, Log.AddAppMsg,
      addMessage_foldl]

/-- C6: `Append` appends the supplied already-constructed messages unchanged at
the end, in the batch's order, keeping each message's own prefix, category and
text (no trimming, no restamping), and leaves the other fields alone. -/
theorem C6_append_raw (r : Log) (batch : List LogInfo) :
    (r.Append batch).ln = r.ln ++ batch ∧ (r.Append batch).Prefix = r.Prefix ∧
    (r.Append batch).osIsWin = r.osIsWin :=
  ⟨rfl, rfl, rfl⟩

/-- C7 as stated is false: `Notes` hands back the internal slice itself
(`return r.ln`), not a copy or immutable view, so the caller program
`ns := r.Notes(); ns[0] = v` writes the log's own storage — here it flips
`HasErrors` from true to false. -/
theorem C7_notes_readonly_counterexample :
    (Log.Notes ⟨"p", [⟨Error, "p", "bad"⟩], false⟩ = [⟨Error, "p", "bad"⟩]) ∧
    Log.HasErrors ⟨"p", [⟨Error, "p", "bad"⟩], false⟩ = true ∧
    (writeNotesElem ⟨"p", [⟨Error, "p", "bad"⟩], false⟩ 0 ⟨Info, "p", "ok"⟩).HasErrors
      = false := by
  refine ⟨rfl, rfl, rfl⟩

/-- C7 amended: `Notes` returns the full stored message sequence in exact
insertion order across mixed categorized adds and raw appends, but the returned
value is the internal storage itself, not a copy or immutable view. -/
theorem C7_notes_order (r : Log) (msgs : List String) (batch : List LogInfo) :
    ((r.AddInfo msgs).Append batch).Notes
      = r.ln ++ msgs.map (fun m => { typ := Info, Prefix := r.Prefix, Message := trimSpace m })
          ++ batch ∧
    r.Notes = r.ln := by
  refine ⟨?_, rfl⟩
  simp [Log.Notes, Log.Append, Log.AddInfo, addMessage_foldl]

/-- C8: `Clear` empties the message sequence while keeping the default prefix
and the construction-time newline flag; afterwards the four predicates are
false, `Prevailing` is `App`, `ToString` is empty, and a subsequent categorized
add behaves exactly as on a freshly constructed log with the same prefix. -/
theorem C8_clear (r : Log) (msgs : List String) :
    r.Clear.ln = [] ∧ r.Clear.Prefix = r.Prefix ∧ r.Clear.osIsWin = r.osIsWin ∧
    r.Clear = NewLog r.Prefix r.osIsWin ∧
    r.Clear.HasErrors = false ∧ r.Clear.HasWarnings = false ∧
    r.Clear.HasInfos = false ∧ r.Clear.HasSucceses = false ∧
    r.Clear.Prevailing = App ∧ r.Clear.ToString = "" ∧
    (r.Clear.AddInfo msgs).ln
      = msgs.map (fun m => { typ := Info, Prefix := r.Prefix, Message := trimSpace m }) := by
  refine ⟨rfl, rfl, rfl, rfl, rfl, rfl, rfl, rfl, rfl, rfl, ?_⟩
  simp [Log.Clear, Log.AddInfo, addMessage_foldl]

/-- C9: Fatal-typed messages carry no tally weight and are invisible to the
has-X predicates: raw-appending a batch of Fatal messages never changes
`Prevailing`, `Prevailing` never returns `Fatal`, and a log whose messages are
all Fatal has `Prevailing = App` with all four predicates false. -/
theorem C9_fatal_invisible (r s : Log) (batch : List LogInfo)
    (hb : ∀ m ∈ batch, m.typ = Fatal) (hs : ∀ m ∈ s.ln, m.typ = Fatal) :
    (r.Append batch).Prevailing = r.Prevailing ∧
    r.Prevailing ≠ Fatal ∧
    s.Prevailing = App ∧
    s.HasErrors = false ∧ s.HasWarnings = false ∧ s.HasInfos = false ∧
    s.HasSucceses = false := by
  have hzero : ∀ xs : List LogInfo, (∀ m ∈ xs, m.typ = Fatal) →
      countType xs Info = 0 ∧ countType xs Warn = 0 ∧ countType xs Error = 0 ∧
        countType xs Success = 0 := by
    intro xs hx
    refine ⟨countType_eq_zero _ _ ?_, countType_eq_zero _ _ ?_, countType_eq_zero _ _ ?_,
      countType_eq_zero _ _ ?_⟩ <;> intro m hm <;> rw [hx m hm] <;> decide
  obtain ⟨hbI, hbW, hbE, hbS⟩ := hzero batch hb
  obtain ⟨hsI, hsW, hsE, hsS⟩ := hzero s.ln hs
  refine ⟨?_, prevailing_ne_fatal r, ?_, ?_, ?_, ?_, ?_⟩
  · exact prevailing_eq_of_counts _ _
      (by simp [Log.Append, countType_append, hbI])
      (by simp [Log.Append, countType_append, hbW])
      (by simp [Log.Append, countType_append, hbE])
      (by simp [Log.Append, countType_append, hbS])
  · rw [prevailing_counts, hsI, hsW, hsE, hsS]
    decide
  · simp only [Log.HasErrors, List.any_eq_false]
    intro m hm
    rw [hs m hm]
    decide
  · simp only [Log.HasWarnings, List.any_eq_false]
    intro m hm
    rw [hs m hm]
    decide
  · simp only [Log.HasInfos, List.any_eq_false]
    intro m hm
    rw [hs m hm]
    decide
  · simp only [Log.HasSucceses, List.any_eq_false]
    intro m hm
    rw [hs m hm]
    decide

/-- Witness for C9: a one-Info log with one Fatal message appended, and a log
holding only a Fatal message. -/
theorem C9_fatal_invisible_witness :
    ((Log.Append ⟨"p", [⟨Info, "p", "a"⟩], false⟩ [⟨Fatal, "q", "x"⟩]).Prevailing
      = Log.Prevailing ⟨"p", [⟨Info, "p", "a"⟩], false⟩) ∧
    Log.Prevailing ⟨"p", [⟨Info, "p", "a"⟩], false⟩ ≠ Fatal ∧
    Log.Prevailing ⟨"q", [⟨Fatal, "q", "x"⟩], false⟩ = App ∧
    Log.HasErrors ⟨"q", [⟨Fatal, "q", "x"⟩], false⟩ = false ∧
    Log.HasWarnings ⟨"q", [⟨Fatal, "q", "x"⟩], false⟩ = false ∧
    Log.HasInfos ⟨"q", [⟨Fatal, "q", "x"⟩], false⟩ = false ∧
    Log.HasSucceses ⟨"q", [⟨Fatal, "q", "x"⟩], false⟩ = false :=
  C9_fatal_invisible ⟨"p", [⟨Info, "p", "a"⟩], false⟩ ⟨"q", [⟨Fatal, "q", "x"⟩], false⟩
    [⟨Fatal, "q", "x"⟩] (by decide) (by decide)

/-- C10: a categorized add reads the public Prefix field at call time and
stamps that value into the new messages: after the field is reassigned, newly
added messages carry the new value while every previously stored message keeps
the prefix it was created with. -/
theorem C10_prefix_stamped_at_call (r : Log) (p : String) (msgs : List String) :
    ((r.setPrefix p).AddInfo msgs).ln
        = r.ln ++ msgs.map (fun m => { typ := Info, Prefix := p, Message := trimSpace m }) ∧
    ((r.setPrefix p).AddWarning msgs).ln
        = r.ln ++ msgs.map (fun m => { typ := Warn, Prefix := p, Message := trimSpace m }) ∧
    ((r.setPrefix p).AddError msgs).ln
        = r.ln ++ msgs.map (fun m => { typ := Error, Prefix := p, Message := trimSpace m }) ∧
    ((r.setPrefix p).AddSuccess msgs).ln
        = r.ln ++ msgs.map (fun m => { typ := Success, Prefix := p, Message := trimSpace m }) ∧
    ((r.setPrefix p).AddAppMsg msgs).ln
        = r.ln ++ msgs.map (fun m => { typ := App, Prefix := p, Message := trimSpace m }) := by
  refine ⟨?_, ?_, ?_, ?_, ?_⟩ <;>
    simp [Log.setPrefix, Log.AddInfo, Log.AddWarning, Log.AddError, Log.AddSuccess,
      Log.AddAppMsg, addMessage_foldl]

end StdutilLog
